import Mathlib

/-!
Verification of the TZE (Transparent Zcash Extension) wire-format core of
the Ztarknet/zebra repository.

The entity codecs (`Data`, `OutPoint`, `TzeIn`, `TzeOut`, `Bundle`) are
embedded from `zebra-chain/src/tze.rs`.  The leaf codecs they call —
`CompactSize64`, `zcash_serialize_bytes`, the bounded `Vec` decoder, the
`Amount` constructor and the `MAX_BLOCK_BYTES` constant — live in modules of
the repository that are not part of the provided sources, so they are
modelled from the specification (each such definition says so in its doc
comment).

Byte streams are `List Nat` with each byte intended to lie below 256; a
decoder is a pure function from a stream to either an error or a decoded
value paired with the unconsumed remainder of the stream, which models the
forward-only `io::Read` discipline of the Rust code.
-/

namespace Zebra

/-- Decode-path failures.  In the Rust code every failure is a
`SerializationError`; reading past end-of-input surfaces as an unexpected-EOF
I/O error, and every other failure is `SerializationError::Parse` carrying a
static message.  The two constructors keep those classes distinct. -/
inductive SerializationError where
  | unexpectedEof : SerializationError
  | parse : String → SerializationError
deriving DecidableEq, Repr

/-- Result of running a decoder on a byte stream: an error, or the decoded
value together with the remaining (unconsumed) bytes. -/
abbrev DecodeResult (α : Type) := Except SerializationError (α × List Nat)

/-- Read exactly `k` bytes from the stream, failing with an unexpected-EOF
error (and consuming nothing) when fewer remain.  Models the fixed-width
reads (`read_32_bytes`, `read_u32`, `read_i64`, payload reads) of the
forward-only reader. -/
def readBytes (k : Nat) (s : List Nat) : DecodeResult (List Nat) :=
  if k ≤ s.length then .ok (s.take k, s.drop k) else .error .unexpectedEof

/-- Value of a little-endian byte sequence. -/
def leVal : List Nat → Nat
  | [] => 0
  | b :: bs => b + 256 * leVal bs

/-- The `k` little-endian bytes of `n` (mod `256 ^ k`). -/
def toLE : Nat → Nat → List Nat
  | 0, _ => []
  | k + 1, n => n % 256 :: toLE k (n / 256)

/-- Modelled from the spec: the variable-length integer codec (spec §4.1,
"CompactSize" in `zebra-chain`, not under the provided sources), encoder
side.  This is the Bitcoin/Zcash CompactSize form referenced by ZIP-222: a
value below `0xfd` is a single byte; otherwise a marker byte `0xfd`/`0xfe`/
`0xff` is followed by a 2-, 4- or 8-byte little-endian field, the shortest
form that fits being chosen. -/
def CompactSize64.zcash_serialize (n : Nat) : List Nat :=
  if n < 0xfd then [n]
  else if n < 0x10000 then 0xfd :: toLE 2 n
  else if n < 0x100000000 then 0xfe :: toLE 4 n
  else 0xff :: toLE 8 n

/-- Modelled from the spec: the variable-length integer codec (spec §4.1),
decoder side.  Truncation of the marker or of its value field is an
unexpected-EOF error; a value that would have fitted a shorter form is a
non-canonical (`Malformed`-class) parse error, as §4.1 requires. -/
def CompactSize64.zcash_deserialize (s : List Nat) : DecodeResult Nat :=
  match s with
  | [] => .error .unexpectedEof
  | b :: rest =>
    if b < 0xfd then .ok (b, rest)
    else if b = 0xfd then
      match readBytes 2 rest with
      | .error e => .error e
      | .ok (bs, r) =>
        if leVal bs < 0xfd then .error (.parse "CompactSize is not canonical")
        else .ok (leVal bs, r)
    else if b = 0xfe then
      match readBytes 4 rest with
      | .error e => .error e
      | .ok (bs, r) =>
        if leVal bs < 0x10000 then .error (.parse "CompactSize is not canonical")
        else .ok (leVal bs, r)
    else
      match readBytes 8 rest with
      | .error e => .error e
      | .ok (bs, r) =>
        if leVal bs < 0x100000000 then .error (.parse "CompactSize is not canonical")
        else .ok (leVal bs, r)

/-- Modelled from the spec: the length-prefixed byte-sequence encoder
(spec §4.2, `zcash_serialize_bytes` in `zebra-chain`, not under the provided
sources): the byte count via the integer codec, then the raw bytes. -/
def zcash_serialize_bytes (p : List Nat) : List Nat :=
  CompactSize64.zcash_serialize p.length ++ p

/-- Modelled from the spec: the length-prefixed byte-sequence decoder
(spec §4.2, the `Vec<u8>` instance in `zebra-chain`): read the count via the
integer codec, then exactly that many bytes, failing with unexpected-EOF
when fewer remain. -/
def zcash_deserialize_bytes (s : List Nat) : DecodeResult (List Nat) :=
  match CompactSize64.zcash_deserialize s with
  | .error e => .error e
  | .ok (n, r) => readBytes n r

/-- A transaction hash, `transaction::Hash`: an external collaborator
fixed-size hash value type (spec §6) wrapping 32 raw bytes. -/
structure Hash where
  bytes : List Nat
deriving DecidableEq, Repr

/-- Identifier allocated to a specific transparent extension
(`ExtensionId`, a newtype over `u64`). -/
structure ExtensionId where
  val : Nat
deriving DecidableEq, Repr

/-- Mode identifier scoped to an `ExtensionId` (`Mode`, a newtype over
`u64`). -/
structure Mode where
  val : Nat
deriving DecidableEq, Repr

/-- Serialized payload shared by TZE inputs and outputs (`Data`). -/
structure Data where
  extension_id : ExtensionId
  mode : Mode
  payload : List Nat
deriving DecidableEq, Repr

/-- Encoder of `Data` (`impl ZcashSerialize for Data`): the extension id and
the mode through `CompactSize64`, then the payload through
`zcash_serialize_bytes`. -/
def Data.zcash_serialize (d : Data) : List Nat :=
  CompactSize64.zcash_serialize d.extension_id.val ++
    CompactSize64.zcash_serialize d.mode.val ++
    zcash_serialize_bytes d.payload

/-- Decoder of `Data` (`impl ZcashDeserialize for Data`): the extension id,
the mode, then the payload, each sub-decode failure propagated unchanged. -/
def Data.zcash_deserialize (s : List Nat) : DecodeResult Data :=
  match CompactSize64.zcash_deserialize s with
  | .error e => .error e
  | .ok (extension_id, s1) =>
    match CompactSize64.zcash_deserialize s1 with
    | .error e => .error e
    | .ok (mode, s2) =>
      match zcash_deserialize_bytes s2 with
      | .error e => .error e
      | .ok (payload, s3) => .ok (⟨⟨extension_id⟩, ⟨mode⟩, payload⟩, s3)

/-- Outpoint reference for a TZE output (`OutPoint`): a transaction hash and
a `u32` output index. -/
structure OutPoint where
  hash : Hash
  index : Nat
deriving DecidableEq, Repr

/-- Returns a new `OutPoint` from an in-memory output index
(`OutPoint::from_usize`).  The Rust code converts `usize` to `u32` with
`try_into().expect(..)`, panicking when the index does not fit in 32 bits;
`Option.none` models that panic — a fatal abort, not a recoverable
`SerializationError`. -/
def OutPoint.from_usize (hash : Hash) (index : Nat) : Option OutPoint :=
  if index < 2 ^ 32 then some ⟨hash, index⟩ else none

/-- Encoder of `OutPoint` (`impl ZcashSerialize for OutPoint`): the 32 raw
hash bytes, then the index as 4 little-endian bytes. -/
def OutPoint.zcash_serialize (o : OutPoint) : List Nat :=
  o.hash.bytes ++ toLE 4 o.index

/-- Decoder of `OutPoint` (`impl ZcashDeserialize for OutPoint`): 32 raw
hash bytes, then a 4-byte little-endian index. -/
def OutPoint.zcash_deserialize (s : List Nat) : DecodeResult OutPoint :=
  match readBytes 32 s with
  | .error e => .error e
  | .ok (hashBytes, s1) =>
    match readBytes 4 s1 with
    | .error e => .error e
    | .ok (indexBytes, s2) => .ok (⟨⟨hashBytes⟩, leVal indexBytes⟩, s2)

/-- Witness data used to satisfy a previously published precondition
(`TzeIn`). -/
structure TzeIn where
  prevout : OutPoint
  witness : Data
deriving DecidableEq, Repr

/-- Encoder of `TzeIn` (`impl ZcashSerialize for TzeIn`): the prevout, then
the witness. -/
def TzeIn.zcash_serialize (t : TzeIn) : List Nat :=
  t.prevout.zcash_serialize ++ t.witness.zcash_serialize

/-- Decoder of `TzeIn` (`impl ZcashDeserialize for TzeIn`): the prevout,
then the witness, each sub-decode failure propagated unchanged. -/
def TzeIn.zcash_deserialize (s : List Nat) : DecodeResult TzeIn :=
  match OutPoint.zcash_deserialize s with
  | .error e => .error e
  | .ok (prevout, s1) =>
    match Data.zcash_deserialize s1 with
    | .error e => .error e
    | .ok (witness, s2) => .ok (⟨prevout, witness⟩, s2)

/-- Modelled from the spec: the external non-negative amount type
(spec §6: "a non-negative-amount type constructible from a signed 64-bit
integer, failing for negative input").  `Amount::<NonNegative>::try_from`
over an `i64`, with the value kept as the signed integer itself. -/
def Amount.try_from (v : Int) : Option Int :=
  if 0 ≤ v then some v else none

/-- Two's-complement little-endian byte encoding of a signed 64-bit integer
(`write_i64::<LittleEndian>`). -/
def i64ToLE (v : Int) : List Nat :=
  toLE 8 (v % (2 : Int) ^ 64).toNat

/-- Signed interpretation of 8 little-endian bytes
(`read_i64::<LittleEndian>`). -/
def i64OfBytes (bs : List Nat) : Int :=
  if leVal bs < 2 ^ 63 then (leVal bs : Int) else (leVal bs : Int) - 2 ^ 64

/-- A TZE output containing spendable value encumbered by a precondition
(`TzeOut`). -/
structure TzeOut where
  value : Int
  precondition : Data
deriving DecidableEq, Repr

/-- Encoder of `TzeOut` (`impl ZcashSerialize for TzeOut`): the value as an
8-byte little-endian signed integer, then the precondition. -/
def TzeOut.zcash_serialize (t : TzeOut) : List Nat :=
  i64ToLE t.value ++ t.precondition.zcash_serialize

/-- Decoder of `TzeOut` (`impl ZcashDeserialize for TzeOut`): an 8-byte
little-endian signed value fed to `Amount::try_from`, a failed conversion
mapped to the `Parse` error carrying "invalid non-negative TZE value", then
the precondition. -/
def TzeOut.zcash_deserialize (s : List Nat) : DecodeResult TzeOut :=
  match readBytes 8 s with
  | .error e => .error e
  | .ok (valueBytes, s1) =>
    match Amount.try_from (i64OfBytes valueBytes) with
    | none => .error (.parse "invalid non-negative TZE value")
    | some value =>
      match Data.zcash_deserialize s1 with
      | .error e => .error e
      | .ok (precondition, s2) => .ok (⟨value, precondition⟩, s2)

/-- Decode exactly `n` elements in sequence, propagating the first element
decode failure (the element-reading loop of the bounded repeated-element
decoder, spec §4.4). -/
def readElems (readElem : List Nat → DecodeResult α) :
    Nat → List Nat → DecodeResult (List α)
  | 0, s => .ok ([], s)
  | n + 1, s =>
    match readElem s with
    | .error e => .error e
    | .ok (a, s1) =>
      match readElems readElem n s1 with
      | .error e => .error e
      | .ok (as, s2) => .ok (a :: as, s2)

/-- Modelled from the spec: the bounded repeated-element decoder (spec §4.4,
the generic `Vec<T: TrustedPreallocate>` instance in `zebra-chain`, not
under the provided sources): read the count, reject it — before decoding or
allocating any element — when it exceeds the element type's preallocation
bound, then decode exactly that many elements. -/
def zcash_deserialize_vec (maxAllocation : Nat)
    (readElem : List Nat → DecodeResult α) (s : List Nat) :
    DecodeResult (List α) :=
  match CompactSize64.zcash_deserialize s with
  | .error e => .error e
  | .ok (n, r) =>
    if n > maxAllocation then .error (.parse "Vector longer than max allocation")
    else readElems readElem n r

/-- Modelled from the spec: the repeated-element encoder (spec §4.4): the
element count via the integer codec, then each element in order. -/
def zcash_serialize_vec (writeElem : α → List Nat) (xs : List α) : List Nat :=
  CompactSize64.zcash_serialize xs.length ++ (xs.map writeElem).flatten

/-- Modelled from the spec: the protocol-wide maximum container size `M`
(spec §4.3), `MAX_BLOCK_BYTES` in `zebra-chain`'s block module (not under
the provided sources): the maximum serialized block size in bytes. -/
def MAX_BLOCK_BYTES : Nat := 2000000

/-- The minimal serialized size of a `Data` structure (source constant
`MIN_TZE_DATA_SIZE`). -/
def MIN_TZE_DATA_SIZE : Nat := 3

/-- The minimal serialized size of a `TzeIn` (source constant
`MIN_TZE_INPUT_SIZE`). -/
def MIN_TZE_INPUT_SIZE : Nat := 32 + 4 + MIN_TZE_DATA_SIZE

/-- The minimal serialized size of a `TzeOut` (source constant
`MIN_TZE_OUTPUT_SIZE`). -/
def MIN_TZE_OUTPUT_SIZE : Nat := 8 + MIN_TZE_DATA_SIZE

/-- Preallocation bound of `TzeIn` (`impl TrustedPreallocate for TzeIn`). -/
def TzeIn.max_allocation : Nat := MAX_BLOCK_BYTES / MIN_TZE_INPUT_SIZE

/-- Preallocation bound of `TzeOut` (`impl TrustedPreallocate for TzeOut`). -/
def TzeOut.max_allocation : Nat := MAX_BLOCK_BYTES / MIN_TZE_OUTPUT_SIZE

/-- Preallocation bound of `Bundle` (`impl TrustedPreallocate for Bundle`). -/
def Bundle.max_allocation : Nat := 1

/-- Collection of TZE inputs and outputs embedded in a transaction
(`Bundle`). -/
structure Bundle where
  inputs : List TzeIn
  outputs : List TzeOut
deriving DecidableEq, Repr

/-- Encoder of `Bundle` (`impl ZcashSerialize for Bundle`): the inputs
sequence, then the outputs sequence. -/
def Bundle.zcash_serialize (b : Bundle) : List Nat :=
  zcash_serialize_vec TzeIn.zcash_serialize b.inputs ++
    zcash_serialize_vec TzeOut.zcash_serialize b.outputs

/-- Decoder of `Bundle` (`impl ZcashDeserialize for Bundle`): the inputs
sequence, then the outputs sequence, through the bounded repeated-element
decoder with each element type's own preallocation bound. -/
def Bundle.zcash_deserialize (s : List Nat) : DecodeResult Bundle :=
  match zcash_deserialize_vec TzeIn.max_allocation TzeIn.zcash_deserialize s with
  | .error e => .error e
  | .ok (inputs, s1) =>
    match zcash_deserialize_vec TzeOut.max_allocation TzeOut.zcash_deserialize s1 with
    | .error e => .error e
    | .ok (outputs, s2) => .ok (⟨inputs, outputs⟩, s2)

/-- Convenience helper to produce an empty bundle (`empty_bundle`, i.e.
`Bundle::default()`). -/
def empty_bundle : Bundle := ⟨[], []⟩

/-- Validity of an in-memory transaction hash: the Rust type is a
`[u8; 32]`, so exactly 32 bytes, each below 256. -/
abbrev Hash.Valid (h : Hash) : Prop :=
  h.bytes.length = 32 ∧ ∀ b ∈ h.bytes, b < 256

/-- Validity of an in-memory `Data`: the identifiers fit in a `u64`, the
payload length fits in a `u64` (a Rust `Vec` length), and the payload holds
real bytes. -/
abbrev Data.Valid (d : Data) : Prop :=
  d.extension_id.val < 2 ^ 64 ∧ d.mode.val < 2 ^ 64 ∧
    d.payload.length < 2 ^ 64 ∧ ∀ b ∈ d.payload, b < 256

/-- Validity of an in-memory `OutPoint`: a real 32-byte hash and a `u32`
index. -/
abbrev OutPoint.Valid (o : OutPoint) : Prop :=
  o.hash.Valid ∧ o.index < 2 ^ 32

/-- Validity of an in-memory `TzeIn`. -/
abbrev TzeIn.Valid (t : TzeIn) : Prop :=
  t.prevout.Valid ∧ t.witness.Valid

/-- Validity of an in-memory `TzeOut`: the amount is a non-negative `i64`
and the precondition is valid. -/
abbrev TzeOut.Valid (t : TzeOut) : Prop :=
  0 ≤ t.value ∧ t.value < 2 ^ 63 ∧ t.precondition.Valid

/-- Validity of an in-memory `Bundle`: every element is valid and neither
sequence exceeds its element type's preallocation bound (a longer sequence
could not fit in any valid container, spec §4.3, and its own decoder would
reject the count). -/
abbrev Bundle.Valid (b : Bundle) : Prop :=
  (∀ i ∈ b.inputs, i.Valid) ∧ (∀ o ∈ b.outputs, o.Valid) ∧
    b.inputs.length ≤ TzeIn.max_allocation ∧
    b.outputs.length ≤ TzeOut.max_allocation

/-- Extension identifier allocated to the STWO Cairo verifier TZE
(`STWO_CAIRO_EXTENSION_ID`): the ASCII bytes of "STWO". -/
def STWO_CAIRO_EXTENSION_ID : Nat := 0x5354574F

/-- Supported TZE modes for the prototype (`STWO_CAIRO_SUPPORTED_MODES`). -/
def STWO_CAIRO_SUPPORTED_MODES : List Nat := [0]

/-- Errors that may be returned by the STWO verifier stub (`VerifyError`).
The payloads of the last three constructors are reduced to strings; in the
source they carry values of external-crate types. -/
inductive VerifyError where
  | unsupportedMode : Nat → VerifyError
  | invalidPrecondition : String → VerifyError
  | invalidWitnessEncoding : String → VerifyError
  | invalidProof : String → VerifyError
  | verificationFailed : String → VerifyError
deriving DecidableEq, Repr

/-- Extracts the pedersen flag and the proof bytes from the precondition and
witness payloads (`extract_proof_bytes`): the flag is the first precondition
payload byte with the proof bytes being the whole witness payload, else the
first witness payload byte with the proof bytes being the remainder, else an
invalid-precondition error. -/
def extract_proof_bytes (precondition witness : Data) :
    Except VerifyError (Bool × List Nat) :=
  match precondition.payload with
  | flag :: _ => .ok (flag != 0, witness.payload)
  | [] =>
    match witness.payload with
    | flag :: rest => .ok (flag != 0, rest)
    | [] => .error (.invalidPrecondition
        "witness payload must contain at least one byte")

/-- Prototype verifier entry point (`verify_stwo_cairo`).  The source's
extension-id comparison only emits a `tracing::debug!` log, so it cannot
affect the returned value; the model keeps the computed condition as an
unused binding.  The UTF-8 check, the JSON proof parsing and the STARK
verification live in external crates (spec §1 treats the verifier tail as an
external pluggable capability), so they are abstracted into the `checkProof`
argument, applied to the pedersen flag and the extracted proof bytes. -/
def verify_stwo_cairo (checkProof : Bool → List Nat → Except VerifyError Unit)
    (extension_id : Nat) (mode : Nat) (precondition witness : Data) :
    Except VerifyError Unit :=
  let _mismatched := extension_id != STWO_CAIRO_EXTENSION_ID ||
    precondition.extension_id.val != STWO_CAIRO_EXTENSION_ID ||
    witness.extension_id.val != STWO_CAIRO_EXTENSION_ID
  if ¬ (mode ∈ STWO_CAIRO_SUPPORTED_MODES) ∨
      ¬ (precondition.mode.val ∈ STWO_CAIRO_SUPPORTED_MODES) ∨
      ¬ (witness.mode.val ∈ STWO_CAIRO_SUPPORTED_MODES) then
    .error (.unsupportedMode mode)
  else
    match extract_proof_bytes precondition witness with
    | .error e => .error e
    | .ok (with_pedersen, proof_bytes) => checkProof with_pedersen proof_bytes

/-- The all-zero 32-byte transaction hash, a concrete sample value. -/
def zeroHash : Hash := ⟨List.replicate 32 0⟩

/-- Concrete sample `Data` taken from the spec's concrete scenario:
extension id `0x5354574F`, mode `0`, payload `[1]`. -/
def sampleData : Data := ⟨⟨0x5354574F⟩, ⟨0⟩, [1]⟩

/-- Concrete sample `OutPoint`: the zero hash with index `0`. -/
def sampleOutPoint : OutPoint := ⟨zeroHash, 0⟩

/-- Concrete sample `TzeIn` from the spec's concrete scenario. -/
def sampleTzeIn : TzeIn := ⟨sampleOutPoint, sampleData⟩

/-- Concrete sample `TzeOut`: value `1` with the sample precondition. -/
def sampleTzeOut : TzeOut := ⟨1, sampleData⟩

/-- Concrete sample `Bundle` with one input and one output. -/
def sampleBundle : Bundle := ⟨[sampleTzeIn], [sampleTzeOut]⟩

theorem toLE_length (k n : Nat) : (toLE k n).length = k := by
  induction k generalizing n with
  | zero => rfl
  | succ k ih => simp [toLE, ih]

theorem toLE_lt (k n : Nat) : ∀ b ∈ toLE k n, b < 256 := by
  induction k generalizing n with
  | zero => simp [toLE]
  | succ k ih =>
    intro b hb
    simp only [toLE, List.mem_cons] at hb
    rcases hb with h | h
    · exact h ▸ Nat.mod_lt _ (by norm_num)
    · exact ih _ b h

theorem leVal_toLE (k n : Nat) : leVal (toLE k n) = n % 256 ^ k := by
  induction k generalizing n with
  | zero => simp [toLE, leVal, Nat.mod_one]
  | succ k ih =>
    have h0 : n % (256 * 256 ^ k) < 256 * 256 ^ k := Nat.mod_lt _ (by positivity)
    have h1 : n % (256 * 256 ^ k) / 256 = n / 256 % 256 ^ k :=
      Nat.mod_mul_right_div_self n 256 (256 ^ k)
    have h2 : n % (256 * 256 ^ k) % 256 = n % 256 :=
      Nat.mod_mod_of_dvd n ⟨256 ^ k, rfl⟩
    have h3 := Nat.div_add_mod (n % (256 * 256 ^ k)) 256
    have h4 : leVal (toLE (k + 1) n) = n % 256 + 256 * (n / 256 % 256 ^ k) := by
      simp [toLE, leVal, ih]
    rw [h4, pow_succ, Nat.mul_comm (256 ^ k) 256]
    omega

theorem toLE_leVal (bs : List Nat) (hb : ∀ b ∈ bs, b < 256) :
    toLE bs.length (leVal bs) = bs := by
  induction bs with
  | nil => rfl
  | cons b t ih =>
    have hblt : b < 256 := hb b (List.mem_cons_self b t)
    have ht : ∀ x ∈ t, x < 256 := fun x hx => hb x (List.mem_cons_of_mem b hx)
    have hmod : (b + 256 * leVal t) % 256 = b := by
      rw [Nat.add_mul_mod_self_left, Nat.mod_eq_of_lt hblt]
    have hdiv : (b + 256 * leVal t) / 256 = leVal t := by
      rw [Nat.add_mul_div_left b _ (by norm_num : (0 : Nat) < 256),
        Nat.div_eq_of_lt hblt, Nat.zero_add]
    simp only [List.length_cons, leVal, toLE, hmod, hdiv, ih ht]

theorem leVal_lt (bs : List Nat) (hb : ∀ b ∈ bs, b < 256) :
    leVal bs < 256 ^ bs.length := by
  induction bs with
  | nil => simp [leVal]
  | cons b t ih =>
    have hblt : b < 256 := hb b (List.mem_cons_self b t)
    have ht := ih fun x hx => hb x (List.mem_cons_of_mem b hx)
    simp only [leVal, List.length_cons, pow_succ]
    calc b + 256 * leVal t < 256 + 256 * leVal t := by omega
      _ = 256 * (leVal t + 1) := by ring
      _ ≤ 256 * 256 ^ t.length := by
          exact Nat.mul_le_mul_left 256 ht
      _ = 256 ^ t.length * 256 := Nat.mul_comm _ _

theorem readBytes_append {k : Nat} (xs rest : List Nat) (h : xs.length = k) :
    readBytes k (xs ++ rest) = .ok (xs, rest) := by
  subst h
  have h1 : xs.length ≤ (xs ++ rest).length := by
    simp [List.length_append]
  simp [readBytes, h1, List.take_left, List.drop_left]

theorem compactSize64_roundtrip (n : Nat) (hn : n < 2 ^ 64) (rest : List Nat) :
    CompactSize64.zcash_deserialize (CompactSize64.zcash_serialize n ++ rest) =
      .ok (n, rest) := by
  by_cases h1 : n < 0xfd
  · simp [CompactSize64.zcash_serialize, CompactSize64.zcash_deserialize, h1]
  · by_cases h2 : n < 0x10000
    · have hs : CompactSize64.zcash_serialize n = 0xfd :: toLE 2 n := by
        simp [CompactSize64.zcash_serialize, h1, h2]
      have hv : leVal (toLE 2 n) = n := by
        rw [leVal_toLE]; exact Nat.mod_eq_of_lt h2
      rw [hs]
      simp only [List.cons_append, CompactSize64.zcash_deserialize,
        readBytes_append (toLE 2 n) rest (toLE_length 2 n), hv]
      norm_num [h1]
    · by_cases h3 : n < 0x100000000
      · have hs : CompactSize64.zcash_serialize n = 0xfe :: toLE 4 n := by
          simp [CompactSize64.zcash_serialize, h1, h2, h3]
        have hv : leVal (toLE 4 n) = n := by
          rw [leVal_toLE]; exact Nat.mod_eq_of_lt h3
        rw [hs]
        simp only [List.cons_append, CompactSize64.zcash_deserialize,
          readBytes_append (toLE 4 n) rest (toLE_length 4 n), hv]
        norm_num [h2]
      · have hs : CompactSize64.zcash_serialize n = 0xff :: toLE 8 n := by
          simp [CompactSize64.zcash_serialize, h1, h2, h3]
        have hv : leVal (toLE 8 n) = n := by
          rw [leVal_toLE]; exact Nat.mod_eq_of_lt (by exact_mod_cast hn)
        rw [hs]
        simp only [List.cons_append, CompactSize64.zcash_deserialize,
          readBytes_append (toLE 8 n) rest (toLE_length 8 n), hv]
        norm_num [h3]

theorem CompactSize64.canonical (s : List Nat) (hs : ∀ b ∈ s, b < 256)
    (n : Nat) (rest : List Nat)
    (h : CompactSize64.zcash_deserialize s = .ok (n, rest)) :
    s = CompactSize64.zcash_serialize n ++ rest ∧ n < 2 ^ 64 := by
  match s with
  | [] => exact absurd h (by simp [CompactSize64.zcash_deserialize])
  | b :: t =>
    have hb : b < 256 := hs b (List.mem_cons_self b t)
    have ht : ∀ x ∈ t, x < 256 := fun x hx => hs x (List.mem_cons_of_mem b hx)
    by_cases h1 : b < 0xfd
    · simp only [CompactSize64.zcash_deserialize, h1, if_pos, Except.ok.injEq,
        Prod.mk.injEq] at h
      obtain ⟨rfl, rfl⟩ := h
      constructor
      · simp [CompactSize64.zcash_serialize, h1]
      · omega
    · by_cases h2 : b = 0xfd
      · subst h2
        simp only [CompactSize64.zcash_deserialize, if_neg h1, if_pos rfl] at h
        by_cases hlen : 2 ≤ t.length
        · rw [show readBytes 2 t = .ok (t.take 2, t.drop 2) from by
            simp [readBytes, hlen]] at h
          by_cases hcanon : leVal (t.take 2) < 0xfd
          · simp [hcanon] at h
          · simp only [if_neg hcanon, Except.ok.injEq, Prod.mk.injEq] at h
            obtain ⟨rfl, rfl⟩ := h
            have htk : ∀ x ∈ t.take 2, x < 256 := fun x hx => ht x (List.mem_of_mem_take hx)
            have hlt : leVal (t.take 2) < 256 ^ 2 := by
              have := leVal_lt (t.take 2) htk
              rwa [List.length_take, Nat.min_eq_left hlen] at this
            have htake : t.take 2 = toLE 2 (leVal (t.take 2)) := by
              have := toLE_leVal (t.take 2) htk
              rw [List.length_take, Nat.min_eq_left hlen] at this
              exact this.symm
            constructor
            · have hser : CompactSize64.zcash_serialize (leVal (t.take 2)) =
                  0xfd :: toLE 2 (leVal (t.take 2)) := by
                simp only [CompactSize64.zcash_serialize, if_neg (by omega : ¬ leVal (t.take 2) < 0xfd),
                  if_pos (by omega : leVal (t.take 2) < 0x10000)]
              rw [hser, ← htake, List.cons_append, List.take_append_drop]
            · omega
        · rw [show readBytes 2 t = .error .unexpectedEof from by
            simp [readBytes, hlen]] at h
          exact absurd h (by simp)
      · by_cases h3 : b = 0xfe
        · subst h3
          simp only [CompactSize64.zcash_deserialize, if_neg h1,
            if_neg (by norm_num : ¬ (254 : Nat) = 253), if_pos rfl] at h
          by_cases hlen : 4 ≤ t.length
          · rw [show readBytes 4 t = .ok (t.take 4, t.drop 4) from by
              simp [readBytes, hlen]] at h
            by_cases hcanon : leVal (t.take 4) < 0x10000
            · simp [hcanon] at h
            · simp only [if_neg hcanon, Except.ok.injEq, Prod.mk.injEq] at h
              obtain ⟨rfl, rfl⟩ := h
              have htk : ∀ x ∈ t.take 4, x < 256 := fun x hx => ht x (List.mem_of_mem_take hx)
              have hlt : leVal (t.take 4) < 256 ^ 4 := by
                have := leVal_lt (t.take 4) htk
                rwa [List.length_take, Nat.min_eq_left hlen] at this
              have htake : t.take 4 = toLE 4 (leVal (t.take 4)) := by
                have := toLE_leVal (t.take 4) htk
                rw [List.length_take, Nat.min_eq_left hlen] at this
                exact this.symm
              constructor
              · have hser : CompactSize64.zcash_serialize (leVal (t.take 4)) =
                    0xfe :: toLE 4 (leVal (t.take 4)) := by
                  simp only [CompactSize64.zcash_serialize,
                    if_neg (by omega : ¬ leVal (t.take 4) < 0xfd),
                    if_neg (by omega : ¬ leVal (t.take 4) < 0x10000),
                    if_pos (by omega : leVal (t.take 4) < 0x100000000)]
                rw [hser, ← htake, List.cons_append, List.take_append_drop]
              · omega
          · rw [show readBytes 4 t = .error .unexpectedEof from by
              simp [readBytes, hlen]] at h
            exact absurd h (by simp)
        · have h4 : b = 0xff := by omega
          subst h4
          simp only [CompactSize64.zcash_deserialize, if_neg h1,
            if_neg (by norm_num : ¬ (255 : Nat) = 253),
            if_neg (by norm_num : ¬ (255 : Nat) = 254)] at h
          by_cases hlen : 8 ≤ t.length
          · rw [show readBytes 8 t = .ok (t.take 8, t.drop 8) from by
              simp [readBytes, hlen]] at h
            by_cases hcanon : leVal (t.take 8) < 0x100000000
            · simp [hcanon] at h
            · simp only [if_neg hcanon, Except.ok.injEq, Prod.mk.injEq] at h
              obtain ⟨rfl, rfl⟩ := h
              have htk : ∀ x ∈ t.take 8, x < 256 := fun x hx => ht x (List.mem_of_mem_take hx)
              have hlt : leVal (t.take 8) < 256 ^ 8 := by
                have := leVal_lt (t.take 8) htk
                rwa [List.length_take, Nat.min_eq_left hlen] at this
              have htake : t.take 8 = toLE 8 (leVal (t.take 8)) := by
                have := toLE_leVal (t.take 8) htk
                rw [List.length_take, Nat.min_eq_left hlen] at this
                exact this.symm
              constructor
              · have hser : CompactSize64.zcash_serialize (leVal (t.take 8)) =
                    0xff :: toLE 8 (leVal (t.take 8)) := by
                  simp only [CompactSize64.zcash_serialize,
                    if_neg (by omega : ¬ leVal (t.take 8) < 0xfd),
                    if_neg (by omega : ¬ leVal (t.take 8) < 0x10000),
                    if_neg (by omega : ¬ leVal (t.take 8) < 0x100000000)]
                rw [hser, ← htake, List.cons_append, List.take_append_drop]
              · exact_mod_cast hlt
          · rw [show readBytes 8 t = .error .unexpectedEof from by
              simp [readBytes, hlen]] at h
            exact absurd h (by simp)

theorem data_roundtrip (d : Data) (hd : d.Valid) (rest : List Nat) :
    Data.zcash_deserialize (Data.zcash_serialize d ++ rest) = .ok (d, rest) := by
  obtain ⟨⟨e⟩, ⟨m⟩, p⟩ := d
  obtain ⟨he, hm, hl, hp⟩ := hd
  simp only [Data.zcash_serialize, zcash_serialize_bytes, List.append_assoc]
  simp only [Data.zcash_deserialize, compactSize64_roundtrip _ he _,
    compactSize64_roundtrip _ hm _, zcash_deserialize_bytes,
    compactSize64_roundtrip _ hl _, readBytes_append p rest rfl]

theorem outPoint_roundtrip (o : OutPoint) (ho : o.Valid) (rest : List Nat) :
    OutPoint.zcash_deserialize (OutPoint.zcash_serialize o ++ rest) =
      .ok (o, rest) := by
  obtain ⟨⟨hbytes⟩, idx⟩ := o
  obtain ⟨⟨hlen, hlt⟩, hidx⟩ := ho
  simp only [OutPoint.zcash_serialize, List.append_assoc]
  simp only [OutPoint.zcash_deserialize, readBytes_append hbytes _ hlen,
    readBytes_append (toLE 4 idx) rest (toLE_length 4 idx)]
  rw [leVal_toLE, Nat.mod_eq_of_lt (by norm_num at hidx ⊢; omega)]

theorem tzeIn_roundtrip (t : TzeIn) (ht : t.Valid) (rest : List Nat) :
    TzeIn.zcash_deserialize (TzeIn.zcash_serialize t ++ rest) = .ok (t, rest) := by
  obtain ⟨prevout, witness⟩ := t
  obtain ⟨hp, hw⟩ := ht
  simp only [TzeIn.zcash_serialize, List.append_assoc, TzeIn.zcash_deserialize,
    outPoint_roundtrip prevout hp, data_roundtrip witness hw]

theorem i64ToLE_eq (v : Int) (h0 : 0 ≤ v) (h1 : v < 2 ^ 63) :
    i64ToLE v = toLE 8 v.toNat := by
  unfold i64ToLE
  rw [Int.emod_eq_of_lt h0 (by omega)]

theorem i64OfBytes_toLE (v : Int) (h0 : 0 ≤ v) (h1 : v < 2 ^ 63) :
    i64OfBytes (toLE 8 v.toNat) = v := by
  have hnat : v.toNat < 2 ^ 63 := by omega
  have hmod : v.toNat % 256 ^ 8 = v.toNat :=
    Nat.mod_eq_of_lt (by norm_num at hnat ⊢; omega)
  unfold i64OfBytes
  rw [leVal_toLE, hmod, if_pos hnat]
  exact Int.toNat_of_nonneg h0

theorem tzeOut_roundtrip (t : TzeOut) (ht : t.Valid) (rest : List Nat) :
    TzeOut.zcash_deserialize (TzeOut.zcash_serialize t ++ rest) = .ok (t, rest) := by
  obtain ⟨v, precondition⟩ := t
  obtain ⟨h0, h1, hp⟩ := ht
  simp only [TzeOut.zcash_serialize, List.append_assoc, TzeOut.zcash_deserialize,
    i64ToLE_eq v h0 h1,
    readBytes_append (toLE 8 v.toNat) _ (toLE_length 8 v.toNat),
    i64OfBytes_toLE v h0 h1]
  simp only [Amount.try_from, if_pos h0, data_roundtrip precondition hp]

theorem readElems_append {α : Type} (writeElem : α → List Nat)
    (readElem : List Nat → DecodeResult α) (xs : List α)
    (H : ∀ a ∈ xs, ∀ r, readElem (writeElem a ++ r) = .ok (a, r))
    (rest : List Nat) :
    readElems readElem xs.length ((xs.map writeElem).flatten ++ rest) =
      .ok (xs, rest) := by
  induction xs with
  | nil => simp [readElems]
  | cons a t ih =>
    have ht := ih fun x hx r => H x (List.mem_cons_of_mem a hx) r
    simp only [List.map_cons, List.flatten_cons, List.length_cons,
      List.append_assoc, readElems, H a (List.mem_cons_self a t), ht]

theorem zcash_vec_roundtrip {α : Type} (maxAllocation : Nat)
    (writeElem : α → List Nat) (readElem : List Nat → DecodeResult α)
    (xs : List α)
    (H : ∀ a ∈ xs, ∀ r, readElem (writeElem a ++ r) = .ok (a, r))
    (hle : xs.length ≤ maxAllocation) (h64 : xs.length < 2 ^ 64)
    (rest : List Nat) :
    zcash_deserialize_vec maxAllocation readElem
      (zcash_serialize_vec writeElem xs ++ rest) = .ok (xs, rest) := by
  simp only [zcash_serialize_vec, List.append_assoc, zcash_deserialize_vec,
    compactSize64_roundtrip xs.length h64 _]
  rw [if_neg (by omega)]
  exact readElems_append writeElem readElem xs H rest

theorem tzeIn_max_allocation_eq : TzeIn.max_allocation = 51282 := by
  norm_num [TzeIn.max_allocation, MAX_BLOCK_BYTES, MIN_TZE_INPUT_SIZE,
    MIN_TZE_DATA_SIZE]

theorem tzeOut_max_allocation_eq : TzeOut.max_allocation = 181818 := by
  norm_num [TzeOut.max_allocation, MAX_BLOCK_BYTES, MIN_TZE_OUTPUT_SIZE,
    MIN_TZE_DATA_SIZE]

theorem bundle_roundtrip (b : Bundle) (hb : b.Valid) (rest : List Nat) :
    Bundle.zcash_deserialize (Bundle.zcash_serialize b ++ rest) = .ok (b, rest) := by
  obtain ⟨inputs, outputs⟩ := b
  obtain ⟨hi, ho, hli, hlo⟩ := hb
  have h64i : inputs.length < 2 ^ 64 := by
    have := tzeIn_max_allocation_eq; simp only [Bundle.inputs] at hli; omega
  have h64o : outputs.length < 2 ^ 64 := by
    have := tzeOut_max_allocation_eq; simp only [Bundle.outputs] at hlo; omega
  simp only [Bundle.zcash_serialize, List.append_assoc, Bundle.zcash_deserialize,
    zcash_vec_roundtrip TzeIn.max_allocation TzeIn.zcash_serialize
      TzeIn.zcash_deserialize inputs
      (fun a ha r => tzeIn_roundtrip a (hi a ha) r) hli h64i,
    zcash_vec_roundtrip TzeOut.max_allocation TzeOut.zcash_serialize
      TzeOut.zcash_deserialize outputs
      (fun a ha r => tzeOut_roundtrip a (ho a ha) r) hlo h64o]

/-- Claim C1: for every valid in-memory `Bundle`, `TzeIn`, `TzeOut`, `Data`
or `OutPoint` value, serializing it and then deserializing the resulting
bytes succeeds and returns a value equal to the original, consuming the
whole stream. -/
theorem claim_C1_roundtrip
    (d : Data) (o : OutPoint) (ti : TzeIn) (tz : TzeOut) (b : Bundle)
    (hd : d.Valid) (ho : o.Valid) (hti : ti.Valid) (htz : tz.Valid)
    (hb : b.Valid) :
    Data.zcash_deserialize (Data.zcash_serialize d) = .ok (d, []) ∧
    OutPoint.zcash_deserialize (OutPoint.zcash_serialize o) = .ok (o, []) ∧
    TzeIn.zcash_deserialize (TzeIn.zcash_serialize ti) = .ok (ti, []) ∧
    TzeOut.zcash_deserialize (TzeOut.zcash_serialize tz) = .ok (tz, []) ∧
    Bundle.zcash_deserialize (Bundle.zcash_serialize b) = .ok (b, []) := by
  refine ⟨?_, ?_, ?_, ?_, ?_⟩
  · have h := data_roundtrip d hd []; rwa [List.append_nil] at h
  · have h := outPoint_roundtrip o ho []; rwa [List.append_nil] at h
  · have h := tzeIn_roundtrip ti hti []; rwa [List.append_nil] at h
  · have h := tzeOut_roundtrip tz htz []; rwa [List.append_nil] at h
  · have h := bundle_roundtrip b hb []; rwa [List.append_nil] at h

/-- Witness for C1: the round-trip property applied at the concrete sample
values. -/
theorem claim_C1_roundtrip_witness :
    Data.zcash_deserialize (Data.zcash_serialize sampleData) =
      .ok (sampleData, []) ∧
    OutPoint.zcash_deserialize (OutPoint.zcash_serialize sampleOutPoint) =
      .ok (sampleOutPoint, []) ∧
    TzeIn.zcash_deserialize (TzeIn.zcash_serialize sampleTzeIn) =
      .ok (sampleTzeIn, []) ∧
    TzeOut.zcash_deserialize (TzeOut.zcash_serialize sampleTzeOut) =
      .ok (sampleTzeOut, []) ∧
    Bundle.zcash_deserialize (Bundle.zcash_serialize sampleBundle) =
      .ok (sampleBundle, []) :=
  claim_C1_roundtrip sampleData sampleOutPoint sampleTzeIn sampleTzeOut
    sampleBundle (by decide) (by decide) (by decide) (by decide) (by decide)

/-- Claim C8: the empty bundle is a valid value, encodes to exactly the two
zero-count varint bytes, and those two bytes decode back to it. -/
theorem claim_C8_empty_bundle :
    Bundle.zcash_serialize empty_bundle = [0, 0] ∧
    Bundle.zcash_deserialize [0, 0] = .ok (empty_bundle, []) ∧
    empty_bundle.Valid := by
  refine ⟨rfl, rfl, by decide⟩

/-- Claim C9: for every hash and every index representable in 32 bits,
`OutPoint.from_usize` returns the outpoint with exactly that hash and index;
for every larger index it aborts fatally — the modelled panic, `none`, in
contrast to the recoverable `SerializationError` results of the decode
path. -/
theorem claim_C9_from_usize :
    (∀ (h : Hash) (i : Nat), i < 2 ^ 32 →
      OutPoint.from_usize h i = some ⟨h, i⟩) ∧
    (∀ (h : Hash) (i : Nat), 2 ^ 32 ≤ i → OutPoint.from_usize h i = none) := by
  constructor
  · intro h i hi
    unfold OutPoint.from_usize
    rw [if_pos hi]
  · intro h i hi
    unfold OutPoint.from_usize
    rw [if_neg (Nat.not_lt.mpr hi)]

/-- Witness for C9 at index `7` (in range) and index `2 ^ 32` (out of
range). -/
theorem claim_C9_from_usize_witness :
    OutPoint.from_usize zeroHash 7 = some ⟨zeroHash, 7⟩ ∧
    OutPoint.from_usize zeroHash (2 ^ 32) = none :=
  ⟨claim_C9_from_usize.1 zeroHash 7 (by decide),
   claim_C9_from_usize.2 zeroHash (2 ^ 32) (by decide)⟩

/-- Claim C2: the preallocation bound of `TzeIn` equals the floor of
`MAX_BLOCK_BYTES / 39`, of `TzeOut` the floor of `MAX_BLOCK_BYTES / 11`, and
of `Bundle` `1`; and whenever a stream's collection-count prefix decodes to
a value exceeding the element type's bound, the bounded decoder fails with
the disallowed-vector-length error immediately after reading the count —
for every element reader and whatever bytes follow the count, so no element
decoding or count-proportional allocation is ever attempted. -/
theorem claim_C2_preallocation_bounds :
    TzeIn.max_allocation = MAX_BLOCK_BYTES / 39 ∧
    TzeOut.max_allocation = MAX_BLOCK_BYTES / 11 ∧
    Bundle.max_allocation = 1 ∧
    ∀ (α : Type) (maxAllocation : Nat) (readElem : List Nat → DecodeResult α)
      (s : List Nat) (n : Nat) (r : List Nat),
      CompactSize64.zcash_deserialize s = .ok (n, r) → maxAllocation < n →
      zcash_deserialize_vec maxAllocation readElem s =
        .error (.parse "Vector longer than max allocation") := by
  refine ⟨rfl, rfl, rfl, ?_⟩
  intro α maxAllocation readElem s n r hcs hlt
  unfold zcash_deserialize_vec
  rw [hcs]
  simp only [gt_iff_lt, if_pos hlt]

/-- Witness for C2: a `TzeIn` count prefix of `51283`, one above the bound
`MAX_BLOCK_BYTES / 39 = 51282`, encoded as the three bytes `fd 53 c8`, is
rejected by the bounded decoder. -/
theorem claim_C2_preallocation_bounds_witness :
    zcash_deserialize_vec TzeIn.max_allocation TzeIn.zcash_deserialize
      [0xfd, 0x53, 0xc8] =
      .error (.parse "Vector longer than max allocation") :=
  claim_C2_preallocation_bounds.2.2.2 TzeIn TzeIn.max_allocation
    TzeIn.zcash_deserialize [0xfd, 0x53, 0xc8] 51283 [] rfl (by decide)

/-- Claim C3: `TzeOut` deserialization of any stream whose leading 8 bytes
are a negative little-endian signed value fails with the malformed-value
parse error, which is distinct from the truncation (unexpected-EOF) error;
and it succeeds on every stream whose value field is non-negative and is
followed by a valid `Data` encoding. -/
theorem claim_C3_tzeout_nonnegative :
    (∀ (vb s : List Nat), vb.length = 8 → i64OfBytes vb < 0 →
      TzeOut.zcash_deserialize (vb ++ s) =
        .error (.parse "invalid non-negative TZE value") ∧
      SerializationError.parse "invalid non-negative TZE value" ≠
        SerializationError.unexpectedEof) ∧
    (∀ (vb : List Nat) (d : Data) (rest : List Nat), vb.length = 8 →
      0 ≤ i64OfBytes vb → d.Valid →
      TzeOut.zcash_deserialize (vb ++ (Data.zcash_serialize d ++ rest)) =
        .ok (⟨i64OfBytes vb, d⟩, rest)) := by
  constructor
  · intro vb s hlen hneg
    refine ⟨?_, by simp⟩
    unfold TzeOut.zcash_deserialize
    rw [readBytes_append vb s hlen]
    simp only [Amount.try_from, if_neg (by omega : ¬ (0 : Int) ≤ i64OfBytes vb)]
  · intro vb d rest hlen hpos hd
    unfold TzeOut.zcash_deserialize
    rw [readBytes_append vb _ hlen]
    simp only [Amount.try_from, if_pos hpos, data_roundtrip d hd rest]

/-- Witness for C3: the raw value `-1` (eight `ff` bytes) is rejected with
the malformed-value error, and the raw value `0` (eight zero bytes)
followed by the sample `Data` encoding decodes successfully. -/
theorem claim_C3_tzeout_nonnegative_witness :
    TzeOut.zcash_deserialize (List.replicate 8 0xff ++ []) =
      .error (.parse "invalid non-negative TZE value") ∧
    TzeOut.zcash_deserialize
        (List.replicate 8 0 ++ (Data.zcash_serialize sampleData ++ [])) =
      .ok (⟨i64OfBytes (List.replicate 8 0), sampleData⟩, []) :=
  ⟨(claim_C3_tzeout_nonnegative.1 (List.replicate 8 0xff) [] (by decide)
      (by decide)).1,
   claim_C3_tzeout_nonnegative.2 (List.replicate 8 0) sampleData [] (by decide)
      (by decide) (by decide)⟩

theorem CompactSize64.reject_fd (n : Nat) (h : n < 0xfd) (rest : List Nat) :
    CompactSize64.zcash_deserialize (0xfd :: (toLE 2 n ++ rest)) =
      .error (.parse "CompactSize is not canonical") := by
  have hv : leVal (toLE 2 n) = n := by
    rw [leVal_toLE]; exact Nat.mod_eq_of_lt (by omega)
  simp only [CompactSize64.zcash_deserialize,
    readBytes_append (toLE 2 n) rest (toLE_length 2 n), hv]
  norm_num [h]

theorem CompactSize64.reject_fe (n : Nat) (h : n < 0x10000) (rest : List Nat) :
    CompactSize64.zcash_deserialize (0xfe :: (toLE 4 n ++ rest)) =
      .error (.parse "CompactSize is not canonical") := by
  have hv : leVal (toLE 4 n) = n := by
    rw [leVal_toLE]; exact Nat.mod_eq_of_lt (by omega)
  simp only [CompactSize64.zcash_deserialize,
    readBytes_append (toLE 4 n) rest (toLE_length 4 n), hv]
  norm_num [h]

theorem CompactSize64.reject_ff (n : Nat) (h : n < 0x100000000) (rest : List Nat) :
    CompactSize64.zcash_deserialize (0xff :: (toLE 8 n ++ rest)) =
      .error (.parse "CompactSize is not canonical") := by
  have hv : leVal (toLE 8 n) = n := by
    rw [leVal_toLE]; exact Nat.mod_eq_of_lt (by omega)
  simp only [CompactSize64.zcash_deserialize,
    readBytes_append (toLE 8 n) rest (toLE_length 8 n), hv]
  norm_num [h]

/-- Claim C4: the variable-length integer decoder behind every varint field
(extension id, mode, payload length, collection count) accepts only the
unique shortest encoding of each value: every accepted byte stream begins
with the canonical encoding of the decoded value; each of the three
longer-than-minimal encoding classes of a value is rejected with the
malformed non-canonical parse error; and the rejection surfaces unchanged
at the field level, shown for a non-minimally encoded `Data` extension-id
field. -/
theorem claim_C4_canonical_minimality :
    (∀ (s : List Nat), (∀ b ∈ s, b < 256) → ∀ (n : Nat) (rest : List Nat),
      CompactSize64.zcash_deserialize s = .ok (n, rest) →
      s = CompactSize64.zcash_serialize n ++ rest) ∧
    (∀ (n : Nat) (rest : List Nat),
      (n < 0xfd →
        CompactSize64.zcash_deserialize (0xfd :: (toLE 2 n ++ rest)) =
          .error (.parse "CompactSize is not canonical")) ∧
      (n < 0x10000 →
        CompactSize64.zcash_deserialize (0xfe :: (toLE 4 n ++ rest)) =
          .error (.parse "CompactSize is not canonical")) ∧
      (n < 0x100000000 →
        CompactSize64.zcash_deserialize (0xff :: (toLE 8 n ++ rest)) =
          .error (.parse "CompactSize is not canonical"))) ∧
    (∀ (n : Nat) (rest : List Nat), n < 0xfd →
      Data.zcash_deserialize (0xfd :: (toLE 2 n ++ rest)) =
        .error (.parse "CompactSize is not canonical")) := by
  refine ⟨?_, ?_, ?_⟩
  · intro s hs n rest h
    exact (CompactSize64.canonical s hs n rest h).1
  · intro n rest
    exact ⟨fun h => CompactSize64.reject_fd n h rest,
      fun h => CompactSize64.reject_fe n h rest,
      fun h => CompactSize64.reject_ff n h rest⟩
  · intro n rest h
    simp only [Data.zcash_deserialize, CompactSize64.reject_fd n h rest]

/-- Witness for C4: the one-byte value `5` is its own canonical encoding; the
3-byte encoding of `1`, the 9-byte encoding of `1`, and a `Data` whose
extension id is the 3-byte encoding of `1`, are all rejected. -/
theorem claim_C4_canonical_minimality_witness :
    [5] = CompactSize64.zcash_serialize 5 ++ [] ∧
    CompactSize64.zcash_deserialize [0xfd, 1, 0] =
      .error (.parse "CompactSize is not canonical") ∧
    CompactSize64.zcash_deserialize [0xff, 1, 0, 0, 0, 0, 0, 0, 0] =
      .error (.parse "CompactSize is not canonical") ∧
    Data.zcash_deserialize [0xfd, 1, 0] =
      .error (.parse "CompactSize is not canonical") :=
  ⟨claim_C4_canonical_minimality.1 [5] (by decide) 5 [] rfl,
   by exact (claim_C4_canonical_minimality.2.1 1 []).1 (by decide),
   by exact (claim_C4_canonical_minimality.2.1 1 []).2.2 (by decide),
   by exact claim_C4_canonical_minimality.2.2 1 [] (by decide)⟩

/-- Claim C6: decoding a `Data` whose declared payload length exceeds the
bytes remaining after the length prefix fails with the unexpected-EOF
truncation error; the failed decode returns only the error, so no payload
bytes are consumed. -/
theorem claim_C6_payload_truncation
    (s s1 s2 r : List Nat) (ext m n : Nat)
    (h1 : CompactSize64.zcash_deserialize s = .ok (ext, s1))
    (h2 : CompactSize64.zcash_deserialize s1 = .ok (m, s2))
    (h3 : CompactSize64.zcash_deserialize s2 = .ok (n, r))
    (h4 : r.length < n) :
    Data.zcash_deserialize s = .error .unexpectedEof := by
  have hrb : readBytes n r = .error .unexpectedEof := by
    unfold readBytes
    rw [if_neg (by omega)]
  simp only [Data.zcash_deserialize, h1, h2, zcash_deserialize_bytes, h3, hrb]

/-- Witness for C6: the stream `[0, 0, 5]` declares a 5-byte payload with
nothing after the length prefix, and fails with the truncation error. -/
theorem claim_C6_payload_truncation_witness :
    Data.zcash_deserialize [0, 0, 5] = .error .unexpectedEof :=
  claim_C6_payload_truncation [0, 0, 5] [0, 5] [5] [] 0 0 5
    rfl rfl rfl (by decide)

/-- Claim C5: each entity's encoder writes its fields in the fixed declared
order — `Data` as varint extension id, varint mode, varint payload length,
then raw payload bytes; `OutPoint` as 32 raw hash bytes then the 4-byte
little-endian index; `TzeIn` as prevout then witness; `TzeOut` as the 8-byte
little-endian signed value then precondition; `Bundle` as the inputs
sequence then the outputs sequence — and each decoder reads the fields in
the same order, propagating the first sub-decode error unchanged. -/
theorem claim_C5_field_order :
    (∀ d : Data, Data.zcash_serialize d =
      CompactSize64.zcash_serialize d.extension_id.val ++
        CompactSize64.zcash_serialize d.mode.val ++
        (CompactSize64.zcash_serialize d.payload.length ++ d.payload)) ∧
    (∀ o : OutPoint, OutPoint.zcash_serialize o =
      o.hash.bytes ++ toLE 4 o.index) ∧
    (∀ t : TzeIn, TzeIn.zcash_serialize t =
      OutPoint.zcash_serialize t.prevout ++ Data.zcash_serialize t.witness) ∧
    (∀ t : TzeOut, TzeOut.zcash_serialize t =
      i64ToLE t.value ++ Data.zcash_serialize t.precondition) ∧
    (∀ b : Bundle, Bundle.zcash_serialize b =
      zcash_serialize_vec TzeIn.zcash_serialize b.inputs ++
        zcash_serialize_vec TzeOut.zcash_serialize b.outputs) ∧
    (∀ (s : List Nat) (e : SerializationError),
      CompactSize64.zcash_deserialize s = .error e →
      Data.zcash_deserialize s = .error e) ∧
    (∀ (s s1 : List Nat) (n : Nat) (e : SerializationError),
      CompactSize64.zcash_deserialize s = .ok (n, s1) →
      CompactSize64.zcash_deserialize s1 = .error e →
      Data.zcash_deserialize s = .error e) ∧
    (∀ (s s1 s2 : List Nat) (n m : Nat) (e : SerializationError),
      CompactSize64.zcash_deserialize s = .ok (n, s1) →
      CompactSize64.zcash_deserialize s1 = .ok (m, s2) →
      zcash_deserialize_bytes s2 = .error e →
      Data.zcash_deserialize s = .error e) ∧
    (∀ (s : List Nat) (e : SerializationError),
      OutPoint.zcash_deserialize s = .error e →
      TzeIn.zcash_deserialize s = .error e) ∧
    (∀ (s s1 : List Nat) (o : OutPoint) (e : SerializationError),
      OutPoint.zcash_deserialize s = .ok (o, s1) →
      Data.zcash_deserialize s1 = .error e →
      TzeIn.zcash_deserialize s = .error e) ∧
    (∀ (s : List Nat) (e : SerializationError),
      readBytes 8 s = .error e → TzeOut.zcash_deserialize s = .error e) ∧
    (∀ (s s1 vb : List Nat) (v : Int) (e : SerializationError),
      readBytes 8 s = .ok (vb, s1) →
      Amount.try_from (i64OfBytes vb) = some v →
      Data.zcash_deserialize s1 = .error e →
      TzeOut.zcash_deserialize s = .error e) ∧
    (∀ (s : List Nat) (e : SerializationError),
      zcash_deserialize_vec TzeIn.max_allocation TzeIn.zcash_deserialize s =
        .error e →
      Bundle.zcash_deserialize s = .error e) ∧
    (∀ (s s1 : List Nat) (xs : List TzeIn) (e : SerializationError),
      zcash_deserialize_vec TzeIn.max_allocation TzeIn.zcash_deserialize s =
        .ok (xs, s1) →
      zcash_deserialize_vec TzeOut.max_allocation TzeOut.zcash_deserialize s1 =
        .error e →
      Bundle.zcash_deserialize s = .error e) := by
  refine ⟨fun d => rfl, fun o => rfl, fun t => rfl, fun t => rfl, fun b => rfl,
    ?_, ?_, ?_, ?_, ?_, ?_, ?_, ?_, ?_⟩
  · intro s e h
    simp only [Data.zcash_deserialize, h]
  · intro s s1 n e h1 h2
    simp only [Data.zcash_deserialize, h1, h2]
  · intro s s1 s2 n m e h1 h2 h3
    simp only [Data.zcash_deserialize, h1, h2, h3]
  · intro s e h
    simp only [TzeIn.zcash_deserialize, h]
  · intro s s1 o e h1 h2
    simp only [TzeIn.zcash_deserialize, h1, h2]
  · intro s e h
    simp only [TzeOut.zcash_deserialize, h]
  · intro s s1 vb v e h1 h2 h3
    simp only [TzeOut.zcash_deserialize, h1, h2, h3]
  · intro s e h
    simp only [Bundle.zcash_deserialize, h]
  · intro s s1 xs e h1 h2
    simp only [Bundle.zcash_deserialize, h1, h2]

/-- Witness for C5: the first-error propagation clauses applied at small
concrete streams (truncated at each successive field), together with the
encode-order equations at the sample values. -/
theorem claim_C5_field_order_witness :
    Data.zcash_serialize sampleData =
      CompactSize64.zcash_serialize sampleData.extension_id.val ++
        CompactSize64.zcash_serialize sampleData.mode.val ++
        (CompactSize64.zcash_serialize sampleData.payload.length ++
          sampleData.payload) ∧
    Data.zcash_deserialize [] = .error .unexpectedEof ∧
    Data.zcash_deserialize [0] = .error .unexpectedEof ∧
    Data.zcash_deserialize [0, 0, 1] = .error .unexpectedEof ∧
    TzeIn.zcash_deserialize [] = .error .unexpectedEof ∧
    TzeIn.zcash_deserialize (List.replicate 36 0) = .error .unexpectedEof ∧
    TzeOut.zcash_deserialize [] = .error .unexpectedEof ∧
    TzeOut.zcash_deserialize (List.replicate 8 0) = .error .unexpectedEof ∧
    Bundle.zcash_deserialize [] = .error .unexpectedEof ∧
    Bundle.zcash_deserialize [0] = .error .unexpectedEof :=
  ⟨claim_C5_field_order.1 sampleData,
   claim_C5_field_order.2.2.2.2.2.1 [] .unexpectedEof rfl,
   claim_C5_field_order.2.2.2.2.2.2.1 [0] [] 0 .unexpectedEof rfl rfl,
   claim_C5_field_order.2.2.2.2.2.2.2.1 [0, 0, 1] [0, 1] [1] 0 0
     .unexpectedEof rfl rfl rfl,
   claim_C5_field_order.2.2.2.2.2.2.2.2.1 [] .unexpectedEof rfl,
   claim_C5_field_order.2.2.2.2.2.2.2.2.2.1 (List.replicate 36 0) []
     ⟨⟨List.replicate 32 0⟩, 0⟩ .unexpectedEof rfl rfl,
   claim_C5_field_order.2.2.2.2.2.2.2.2.2.2.1 [] .unexpectedEof rfl,
   claim_C5_field_order.2.2.2.2.2.2.2.2.2.2.2.1 (List.replicate 8 0) []
     (List.replicate 8 0) 0 .unexpectedEof rfl rfl rfl,
   claim_C5_field_order.2.2.2.2.2.2.2.2.2.2.2.2.1 [] .unexpectedEof rfl,
   claim_C5_field_order.2.2.2.2.2.2.2.2.2.2.2.2.2 [0] [] [] .unexpectedEof
     rfl rfl⟩

/-- Counterexample to C7 as stated: the encoding of the spec's concrete
`TzeIn` scenario is 44 bytes long, not 40 — the extension id `0x5354574F`
occupies a five-byte varint (`fe` marker plus four little-endian bytes),
not a single byte. -/
theorem claim_C7_counterexample :
    (TzeIn.zcash_serialize sampleTzeIn).length = 44 ∧
    (TzeIn.zcash_serialize sampleTzeIn).length ≠ 40 := by
  constructor
  · rfl
  · intro h
    rw [show (TzeIn.zcash_serialize sampleTzeIn).length = 44 from rfl] at h
    exact absurd h (by decide)

/-- Claim C7 (amended): serializing the concrete `TzeIn` — prevout hash of
32 zero bytes and index 0, witness with extension id `0x5354574F`, mode 0
and payload `[1]` — produces exactly 44 bytes, namely
`32 + 4 + (5 + 1 + (1 + 1))`, and deserializing those bytes reproduces the
identical `TzeIn` value. -/
theorem claim_C7_concrete_scenario :
    (TzeIn.zcash_serialize sampleTzeIn).length = 32 + 4 + (5 + 1 + (1 + 1)) ∧
    TzeIn.zcash_deserialize (TzeIn.zcash_serialize sampleTzeIn) =
      .ok (sampleTzeIn, []) := by
  exact ⟨rfl, rfl⟩

/-- Claim C10: `verify_stwo_cairo` returns the unsupported-mode error —
carrying the requested mode — whenever any of the requested mode, the
precondition's mode or the witness's mode lies outside the supported set
`[0]`; and when all three modes are supported the result is, for every
requested extension id and payload extension ids (matching or not), exactly
the continuation on the extracted payload: payload extraction followed by
the abstracted proof parsing and verification.  An extension-id mismatch is
therefore never by itself an error. -/
theorem claim_C10_mode_gate :
    (∀ (checkProof : Bool → List Nat → Except VerifyError Unit)
      (extension_id mode : Nat) (precondition witness : Data),
      (mode ∉ STWO_CAIRO_SUPPORTED_MODES ∨
        precondition.mode.val ∉ STWO_CAIRO_SUPPORTED_MODES ∨
        witness.mode.val ∉ STWO_CAIRO_SUPPORTED_MODES) →
      verify_stwo_cairo checkProof extension_id mode precondition witness =
        .error (.unsupportedMode mode)) ∧
    (∀ (checkProof : Bool → List Nat → Except VerifyError Unit)
      (extension_id mode : Nat) (precondition witness : Data),
      mode ∈ STWO_CAIRO_SUPPORTED_MODES →
      precondition.mode.val ∈ STWO_CAIRO_SUPPORTED_MODES →
      witness.mode.val ∈ STWO_CAIRO_SUPPORTED_MODES →
      verify_stwo_cairo checkProof extension_id mode precondition witness =
        match extract_proof_bytes precondition witness with
        | .error e => .error e
        | .ok (with_pedersen, proof_bytes) =>
            checkProof with_pedersen proof_bytes) := by
  constructor
  · intro checkProof extension_id mode precondition witness h
    simp only [verify_stwo_cairo]
    rw [if_pos h]
  · intro checkProof extension_id mode precondition witness h1 h2 h3
    simp only [verify_stwo_cairo]
    rw [if_neg (by tauto)]

/-- Witness for C10: with requested mode 1 and all extension ids equal to
the STWO id the call fails with the unsupported-mode error for mode 1, and
with all modes 0 but all three extension ids mismatched (7, 9, 11) the call
reaches payload extraction and the stubbed proof check, returning success. -/
theorem claim_C10_mode_gate_witness :
    verify_stwo_cairo (fun _ _ => .ok ()) STWO_CAIRO_EXTENSION_ID 1
        ⟨⟨STWO_CAIRO_EXTENSION_ID⟩, ⟨0⟩, [1]⟩
        ⟨⟨STWO_CAIRO_EXTENSION_ID⟩, ⟨0⟩, [2]⟩ =
      .error (.unsupportedMode 1) ∧
    verify_stwo_cairo (fun _ _ => .ok ()) 7 0 ⟨⟨9⟩, ⟨0⟩, [1]⟩
        ⟨⟨11⟩, ⟨0⟩, [2]⟩ =
      .ok () :=
  ⟨claim_C10_mode_gate.1 (fun _ _ => .ok ()) STWO_CAIRO_EXTENSION_ID 1
      ⟨⟨STWO_CAIRO_EXTENSION_ID⟩, ⟨0⟩, [1]⟩
      ⟨⟨STWO_CAIRO_EXTENSION_ID⟩, ⟨0⟩, [2]⟩ (Or.inl (by decide)),
   claim_C10_mode_gate.2 (fun _ _ => .ok ()) 7 0 ⟨⟨9⟩, ⟨0⟩, [1]⟩
      ⟨⟨11⟩, ⟨0⟩, [2]⟩ (by decide) (by decide) (by decide)⟩
